import Mathlib

/-!
Verification of the in-memory user behavior model implemented in
`src/user_behavior_tracker.py`: interaction records, user profiles,
off-track counters, response-style inference, feedback learning, prompt
personalization and the reliability-metrics aggregation.

Modelling conventions.
Python strings are Lean strings; the Python substring operator on strings
is `strIn`, and `str.lower` is `strLower` (both sides are lowercased
exactly where the source lowercases them).  Python float satisfaction
scores are modelled as exact rationals.  Timestamps produced by
`datetime.now().isoformat()` are modelled as integers (seconds since an
epoch; ISO-8601 comparison of such timestamps is integer comparison), and
every public operation that reads the clock takes the current time as an
explicit argument; `timedelta(days=7)` is the constant `sevenDays`.
Python dicts (`user_profiles`, `off_track_patterns`, profile
`preferences`) are association lists in insertion order with unique keys;
a `defaultdict(int)` read is `offTrackGet` (default 0 without inserting a
key, as `dict.get(k, 0)` does), and `defaultdict` increment is `incKey`
(inserting the key on first increment, as `d[k] += 1` does).  The optional
Supabase mirroring and the Opik tracing collaborators never touch the
in-memory state (all their failures are swallowed by the source), so they
are not part of the state.  A Python `ZeroDivisionError` escaping
`get_reliability_metrics` is the explicit result
`MetricsResult.zeroDivisionError`.
-/

/-- Substring containment on lists of characters: the model of the Python
operator `in` between two strings. -/
def listInfix (needle : List Char) : List Char → Bool
  | [] => needle.isEmpty
  | c :: rest => needle.isPrefixOf (c :: rest) || listInfix needle rest

/-- The Python expression `needle in haystack` for strings. -/
def strIn (needle haystack : String) : Bool :=
  listInfix needle.data haystack.data

/-- The Python method `str.lower`: lowercase every character. -/
def strLower (s : String) : String :=
  String.mk (s.data.map Char.toLower)

/-- Lookup in an insertion-ordered association list (a Python dict read). -/
def alookup {α : Type} : List (String × α) → String → Option α
  | [], _ => none
  | (k, v) :: rest, key => if k = key then some v else alookup rest key

/-- Write to an insertion-ordered association list (a Python dict write):
replaces the value of an existing key in place, appends a new key at the
end. -/
def aset {α : Type} : List (String × α) → String → α → List (String × α)
  | [], key, v => [(key, v)]
  | (k, w) :: rest, key, v =>
    if k = key then (k, v) :: rest else (k, w) :: aset rest key v

/-- The Python statement `d[key] += 1` on a `defaultdict(int)`: a missing
key is treated as 0, so the key is inserted with value 1. -/
def incKey : List (String × Nat) → String → List (String × Nat)
  | [], key => [(key, 1)]
  | (k, n) :: rest, key =>
    if k = key then (k, n + 1) :: rest else (k, n) :: incKey rest key

/-- Record of a user interaction: the `UserInteraction` dataclass. -/
structure UserInteraction where
  user_id : String
  interaction_type : String
  agent_name : String
  input_text : String
  output_text : String
  timestamp : Int
  satisfaction_score : Option ℚ := none
  feedback : Option String := none
  metadata : List (String × String) := []
  deriving DecidableEq, Repr

/-- User behavior profile: the `UserProfile` dataclass after its
`__post_init__` replaced the `None` defaults by empty collections. -/
structure UserProfile where
  user_id : String
  interaction_count : Nat := 0
  preferred_response_style : String := "balanced"
  common_questions : List String := []
  satisfaction_history : List ℚ := []
  last_interaction : Option Int := none
  preferences : List (String × String) := []
  deriving DecidableEq, Repr

/-- The profile `UserProfile(user_id=user_id)` that the tracker creates
lazily for an unseen user. -/
def defaultUserProfile (uid : String) : UserProfile :=
  { user_id := uid }

/-- The mutable state of a `UserBehaviorTracker` instance. -/
structure UserBehaviorTracker where
  interactions : List UserInteraction := []
  user_profiles : List (String × UserProfile) := []
  off_track_patterns : List (String × Nat) := []
  deriving DecidableEq, Repr

/-- The state `UserBehaviorTracker()` starts from. -/
def initialTracker : UserBehaviorTracker := {}

/-- The expression `self.off_track_patterns.get(user_id, 0)`: a
`defaultdict(int)` read that does not insert a key. -/
def offTrackGet (s : UserBehaviorTracker) (uid : String) : Nat :=
  (alookup s.off_track_patterns uid).getD 0

/-- The fixed phrase list `off_track_indicators` of `_detect_off_track`. -/
def off_track_indicators : List String :=
  ["I don\x27t understand", "That\x27s not what I asked", "Wrong",
   "No, that\x27s not right", "You\x27re not helping", "This is useless"]

/-- The indicator loop of `_detect_off_track`: returns at the first
indicator contained in the lowercased input text or feedback text. -/
def checkOffTrackIndicators (input_lower feedback_lower : String) :
    List String → Bool
  | [] => false
  | ind :: rest =>
    if strIn (strLower ind) input_lower || strIn (strLower ind) feedback_lower then true
    else checkOffTrackIndicators input_lower feedback_lower rest

/-- The method `_detect_off_track`: increments the off-track counter of the
user and returns true when an indicator phrase matches or when the
satisfaction score is present and below 3; otherwise leaves the state
unchanged and returns false.  Each returning branch of the source
increments at most once. -/
def detect_off_track (s : UserBehaviorTracker) (uid : String)
    (i : UserInteraction) : UserBehaviorTracker × Bool :=
  let input_lower := strLower i.input_text
  let feedback_lower := strLower (i.feedback.getD "")
  if checkOffTrackIndicators input_lower feedback_lower off_track_indicators then
    ({ s with off_track_patterns := incKey s.off_track_patterns uid }, true)
  else if (match i.satisfaction_score with
           | some sc => decide (sc < 3)
           | none => false) then
    ({ s with off_track_patterns := incKey s.off_track_patterns uid }, true)
  else (s, false)

/-- The method `get_user_profile`: returns the profile of the user,
creating and storing an empty default one when the user is unseen. -/
def get_user_profile (s : UserBehaviorTracker) (uid : String) :
    UserBehaviorTracker × UserProfile :=
  match alookup s.user_profiles uid with
  | some p => (s, p)
  | none =>
    let p := defaultUserProfile uid
    ({ s with user_profiles := aset s.user_profiles uid p }, p)

/-- The `UserInteraction` constructor call of `record_interaction`, with
`datetime.now().isoformat()` passed in as `now`. -/
def mkInteraction (user_id interaction_type agent_name input_text output_text : String)
    (satisfaction_score : Option ℚ) (feedback : Option String)
    (metadata : List (String × String)) (now : Int) : UserInteraction :=
  { user_id := user_id, interaction_type := interaction_type,
    agent_name := agent_name, input_text := input_text,
    output_text := output_text, timestamp := now,
    satisfaction_score := satisfaction_score, feedback := feedback,
    metadata := metadata }

/-- The method `record_interaction`: appends the new interaction record,
lazily creates the profile, bumps its interaction count, sets the last
interaction time, appends a present satisfaction score to the history and
runs the off-track detector.  The best-effort Supabase mirror never
changes the in-memory state. -/
def record_interaction (s : UserBehaviorTracker)
    (user_id interaction_type agent_name input_text output_text : String)
    (satisfaction_score : Option ℚ) (feedback : Option String)
    (metadata : List (String × String)) (now : Int) : UserBehaviorTracker :=
  let interaction : UserInteraction :=
    mkInteraction user_id interaction_type agent_name input_text output_text
      satisfaction_score feedback metadata now
  let s1 := { s with interactions := s.interactions ++ [interaction] }
  let r := get_user_profile s1 user_id
  let s2 := r.1
  let profile := r.2
  let profile := { profile with
    interaction_count := profile.interaction_count + 1,
    last_interaction := some now }
  let profile :=
    match satisfaction_score with
    | some sc =>
      { profile with satisfaction_history := profile.satisfaction_history ++ [sc] }
    | none => profile
  let s3 := { s2 with user_profiles := aset s2.user_profiles user_id profile }
  (detect_off_track s3 user_id interaction).1

/-- The constant `timedelta(days=7)` in seconds. -/
def sevenDays : Int := 7 * 86400

/-- The list `concise_indicators` of `analyze_response_style_preference`. -/
def concise_indicators : List String := ["short", "brief", "quick", "summary"]

/-- The list `detailed_indicators` of `analyze_response_style_preference`. -/
def detailed_indicators : List String := ["more", "details", "explain", "elaborate"]

/-- The method `analyze_response_style_preference`: balanced below 3
recorded interactions, otherwise a majority vote between concise and
detailed indicator phrases over the interactions of the user less than 7
days old. -/
def analyze_response_style_preference (s : UserBehaviorTracker)
    (uid : String) (now : Int) : UserBehaviorTracker × String :=
  let r := get_user_profile s uid
  let s1 := r.1
  let profile := r.2
  if profile.interaction_count < 3 then (s1, "balanced")
  else
    let recent_interactions := s1.interactions.filter
      (fun i => decide (i.user_id = uid) && decide (now - i.timestamp < sevenDays))
    let concise_count := (recent_interactions.filter
      (fun i => concise_indicators.any (fun ind => strIn ind (strLower i.input_text)))).length
    let detailed_count := (recent_interactions.filter
      (fun i => detailed_indicators.any (fun ind => strIn ind (strLower i.input_text)))).length
    if concise_count > detailed_count then (s1, "concise")
    else if detailed_count > concise_count then (s1, "detailed")
    else (s1, "balanced")

/-- The Python slice `xs[-5:]`: the last five elements (all of them when
fewer than five). -/
def lastFive (l : List ℚ) : List ℚ := l.drop (l.length - 5)

/-- Directive appended for a concise response style. -/
def style_concise_directive : String :=
  "Be concise and to the point. Avoid unnecessary details."

/-- Directive appended for a detailed response style. -/
def style_detailed_directive : String :=
  "Provide detailed explanations and context."

/-- Directive appended for an off-track user. -/
def off_track_directive : String :=
  "The user seems confused or off-track. Be extra clear, ask clarifying questions if needed, and ensure you\x27re addressing their actual question."

/-- Directive appended for low recent satisfaction. -/
def low_satisfaction_directive : String :=
  "Previous interactions had low satisfaction. Be more helpful, accurate, and empathetic."

/-- The method `get_personalized_prompt_adjustments`: collects the style,
off-track and low-satisfaction directives in this order and, when any
apply, appends the personalization block to the base prompt; otherwise
returns the base prompt unchanged. -/
def get_personalized_prompt_adjustments (s : UserBehaviorTracker)
    (uid base_prompt : String) (now : Int) : UserBehaviorTracker × String :=
  let r := get_user_profile s uid
  let s1 := r.1
  let profile := r.2
  let r2 := analyze_response_style_preference s1 uid now
  let s2 := r2.1
  let response_style := r2.2
  let is_off_track := offTrackGet s2 uid > 2
  let adjustments : List String :=
    (if response_style = "concise" then [style_concise_directive]
     else if response_style = "detailed" then [style_detailed_directive]
     else [])
    ++ (if is_off_track then [off_track_directive] else [])
    ++ (if profile.satisfaction_history ≠ [] then
          (if (lastFive profile.satisfaction_history).sum /
                ((lastFive profile.satisfaction_history).length : ℚ) < 4 then
             [low_satisfaction_directive]
           else [])
        else [])
  if adjustments ≠ [] then
    (s2, base_prompt ++ "\n\nPERSONALIZATION NOTES:\n"
      ++ String.intercalate "\n" (adjustments.map (fun adj => "- " ++ adj)))
  else (s2, base_prompt)

/-- The method `learn_from_feedback`: computes the five improvement
signals from the lowercased feedback text and updates the profile
preferences (response length from the too-long and too-short signals,
tone from the tone-issue signal).  The satisfaction score is only
mirrored to external storage, never applied to the in-memory profile. -/
def learn_from_feedback (s : UserBehaviorTracker) (uid feedback : String)
    (satisfaction_score : ℚ) : UserBehaviorTracker :=
  let r := get_user_profile s uid
  let s1 := r.1
  let profile := r.2
  let feedback_lower := strLower feedback
  let too_long := strIn "too long" feedback_lower || strIn "verbose" feedback_lower
  let too_short := strIn "too short" feedback_lower || strIn "brief" feedback_lower
  let not_helpful := strIn "not helpful" feedback_lower || strIn "useless" feedback_lower
  let inaccurate := strIn "wrong" feedback_lower || strIn "incorrect" feedback_lower
  let tone_issue := strIn "rude" feedback_lower || strIn "inappropriate" feedback_lower
  let profile :=
    if too_long then
      { profile with preferences := aset profile.preferences "response_length" "shorter" }
    else if too_short then
      { profile with preferences := aset profile.preferences "response_length" "longer" }
    else profile
  let profile :=
    if tone_issue then
      { profile with preferences := aset profile.preferences "tone" "more_professional" }
    else profile
  let _ := satisfaction_score
  let _ := not_helpful
  let _ := inaccurate
  { s1 with user_profiles := aset s1.user_profiles uid profile }

/-- Value of the `agent_performance` defaultdict for one agent name:
interaction count and collected satisfaction scores with the derived
average. -/
structure AgentPerf where
  count : Nat
  avg_satisfaction : ℚ
  satisfaction_scores : List ℚ
  deriving DecidableEq, Repr

/-- One step of the `for interaction in self.interactions` loop of
`get_reliability_metrics`, acting on the defaultdict modelled as a total
function from agent names to count and score list. -/
def agentStep (perf : String → Nat × List ℚ) (i : UserInteraction) :
    String → Nat × List ℚ :=
  fun a =>
    if a = i.agent_name then
      ((perf a).1 + 1,
       match i.satisfaction_score with
       | some sc => (perf a).2 ++ [sc]
       | none => (perf a).2)
    else perf a

/-- The `agent_performance` accumulation loop of `get_reliability_metrics`
over the whole interaction list. -/
def agentRaw (l : List UserInteraction) : String → Nat × List ℚ :=
  l.foldl agentStep (fun _ => (0, []))

/-- The `agent_performance` mapping after the second loop of
`get_reliability_metrics` filled in the average satisfaction of every
agent that has at least one scored interaction (the default average is
0). -/
def agent_performance_of (l : List UserInteraction) : String → AgentPerf :=
  fun a =>
    let raw := agentRaw l a
    { count := raw.1
      satisfaction_scores := raw.2
      avg_satisfaction := if raw.2 ≠ [] then raw.2.sum / (raw.2.length : ℚ) else 0 }

/-- The metrics dictionary built by `get_reliability_metrics` on a
non-empty store. -/
structure ReliabilityMetrics where
  total_interactions : Nat
  unique_users : Nat
  average_satisfaction : ℚ
  off_track_rate : ℚ
  agent_performance : String → AgentPerf
  timestamp : Int

/-- Result of `get_reliability_metrics`: the no-data error dictionary, an
escaping `ZeroDivisionError`, or the metrics dictionary. -/
inductive MetricsResult where
  | noData
  | zeroDivisionError
  | ok (m : ReliabilityMetrics)

/-- The method `get_reliability_metrics`.  The average satisfaction of the
source is the expression `sum(scores) / len(scored)` guarded only by
`if self.interactions else 0`, so when the store is non-empty the division
happens unconditionally and a store with no scored interaction raises
`ZeroDivisionError`; the model makes that raise explicit. -/
def get_reliability_metrics (s : UserBehaviorTracker) (now : Int) :
    MetricsResult :=
  let total_interactions := s.interactions.length
  if total_interactions = 0 then .noData
  else
    let scored := s.interactions.filterMap (fun i => i.satisfaction_score)
    if s.interactions.length ≠ 0 ∧ scored.length = 0 then .zeroDivisionError
    else
      let avg_satisfaction : ℚ :=
        if s.interactions.length ≠ 0 then scored.sum / (scored.length : ℚ) else 0
      let off_track_rate : ℚ :=
        if s.user_profiles.length ≠ 0 then
          (s.off_track_patterns.length : ℚ) / (s.user_profiles.length : ℚ)
        else 0
      .ok { total_interactions := total_interactions
            unique_users := s.user_profiles.length
            average_satisfaction := avg_satisfaction
            off_track_rate := off_track_rate
            agent_performance := agent_performance_of s.interactions
            timestamp := now }

/-- One invocation of the public operation surface of the tracker. -/
inductive Op where
  | record (user_id interaction_type agent_name input_text output_text : String)
      (satisfaction_score : Option ℚ) (feedback : Option String)
      (metadata : List (String × String)) (now : Int)
  | getProfile (user_id : String)
  | style (user_id : String) (now : Int)
  | personalize (user_id base_prompt : String) (now : Int)
  | learn (user_id feedback : String) (satisfaction_score : ℚ)
  | metrics (now : Int)

/-- State transition of one public operation (the read-only metrics query
leaves the state unchanged). -/
def applyOp (s : UserBehaviorTracker) : Op → UserBehaviorTracker
  | .record uid ty ag inp out sc fb md now =>
    record_interaction s uid ty ag inp out sc fb md now
  | .getProfile uid => (get_user_profile s uid).1
  | .style uid now => (analyze_response_style_preference s uid now).1
  | .personalize uid base now => (get_personalized_prompt_adjustments s uid base now).1
  | .learn uid fb sc => learn_from_feedback s uid fb sc
  | .metrics _ => s

/-- State after a finite sequence of public operations run from a fresh
tracker. -/
def runOps (ops : List Op) : UserBehaviorTracker :=
  ops.foldl applyOp initialTracker

/-- Number of interaction records of one user held by the store. -/
def countFor (s : UserBehaviorTracker) (uid : String) : Nat :=
  (s.interactions.filter (fun i => decide (i.user_id = uid))).length

/-- Interaction count of the stored profile of a user, 0 when the user has
no profile. -/
def profileCount (s : UserBehaviorTracker) (uid : String) : Nat :=
  match alookup s.user_profiles uid with
  | some p => p.interaction_count
  | none => 0

/-! ### Association list lemmas -/

/-- Reading back the key just written. -/
theorem alookup_aset_self {α : Type} (l : List (String × α)) (k : String) (v : α) :
    alookup (aset l k v) k = some v := by
  induction l with
  | nil => simp [aset, alookup]
  | cons e rest ih =>
    obtain ⟨k1, w⟩ := e
    by_cases h : k1 = k
    · simp [aset, h, alookup]
    · simp [aset, h, alookup, ih]

/-- Writing one key does not change the value read at another. -/
theorem alookup_aset_ne {α : Type} (l : List (String × α)) (k k' : String) (v : α)
    (h : k' ≠ k) : alookup (aset l k v) k' = alookup l k' := by
  have h0 : ¬k = k' := fun he => h he.symm
  induction l with
  | nil => simp [aset, alookup, h0]
  | cons e rest ih =>
    obtain ⟨k1, w⟩ := e
    by_cases h1 : k1 = k
    · subst h1
      simp [aset, alookup, h0]
    · by_cases h2 : k1 = k'
      · simp [aset, alookup, h1, h2, h]
      · simp [aset, alookup, h1, h2, ih]

/-- Writing the value already stored is the identity. -/
theorem aset_lookup_self {α : Type} (l : List (String × α)) (k : String) (v : α)
    (h : alookup l k = some v) : aset l k v = l := by
  induction l with
  | nil => simp [alookup] at h
  | cons e rest ih =>
    obtain ⟨k1, w⟩ := e
    by_cases h1 : k1 = k
    · subst h1
      simp [alookup] at h
      simp [aset, h]
    · simp [alookup, h1] at h
      simp [aset, h1, ih h]

/-- Two successive writes of the same key collapse to the second. -/
theorem aset_aset {α : Type} (l : List (String × α)) (k : String) (v w : α) :
    aset (aset l k v) k w = aset l k w := by
  induction l with
  | nil => simp [aset]
  | cons e rest ih =>
    obtain ⟨k1, u⟩ := e
    by_cases h : k1 = k
    · simp [aset, h]
    · simp [aset, h, ih]

/-- A successful lookup is a member of the list. -/
theorem alookup_mem {α : Type} (l : List (String × α)) (k : String) (v : α)
    (h : alookup l k = some v) : (k, v) ∈ l := by
  induction l with
  | nil => simp [alookup] at h
  | cons e rest ih =>
    obtain ⟨k1, w⟩ := e
    by_cases h1 : k1 = k
    · subst h1
      simp [alookup] at h
      simp [h]
    · simp [alookup, h1] at h
      simp [ih h]

/-- A lookup succeeds exactly when the key occurs in the key list. -/
theorem alookup_isSome_iff {α : Type} (l : List (String × α)) (k : String) :
    (alookup l k).isSome = true ↔ k ∈ l.map Prod.fst := by
  induction l with
  | nil => simp [alookup]
  | cons e rest ih =>
    obtain ⟨k1, w⟩ := e
    by_cases h1 : k1 = k
    · subst h1
      simp [alookup]
    · have h0 : ¬k = k1 := fun he => h1 he.symm
      simp [alookup, h1, ih, h0]

/-- Key list after a write to an existing key. -/
theorem map_fst_aset_of_isSome {α : Type} (l : List (String × α)) (k : String) (v : α)
    (h : (alookup l k).isSome = true) : (aset l k v).map Prod.fst = l.map Prod.fst := by
  induction l with
  | nil => simp [alookup] at h
  | cons e rest ih =>
    obtain ⟨k1, w⟩ := e
    by_cases h1 : k1 = k
    · simp [aset, h1]
    · simp [alookup, h1] at h
      simp [aset, h1, ih h]

/-- Key list after a write to a fresh key. -/
theorem map_fst_aset_of_none {α : Type} (l : List (String × α)) (k : String) (v : α)
    (h : alookup l k = none) : (aset l k v).map Prod.fst = l.map Prod.fst ++ [k] := by
  induction l with
  | nil => simp [aset]
  | cons e rest ih =>
    obtain ⟨k1, w⟩ := e
    by_cases h1 : k1 = k
    · subst h1
      simp [alookup] at h
    · simp [alookup, h1] at h
      simp [aset, h1, ih h]

/-- A write never shrinks lookup success. -/
theorem alookup_isSome_aset {α : Type} (l : List (String × α)) (k u : String) (v : α)
    (h : (alookup l u).isSome = true) : (alookup (aset l k v) u).isSome = true := by
  by_cases hu : u = k
  · subst hu
    rw [alookup_aset_self]
    rfl
  · rw [alookup_aset_ne _ _ _ _ hu]
    exact h

/-- A write keeps a no-duplicate key list duplicate free. -/
theorem nodup_keys_aset {α : Type} (l : List (String × α)) (k : String) (v : α)
    (h : (l.map Prod.fst).Nodup) : ((aset l k v).map Prod.fst).Nodup := by
  cases hs : alookup l k with
  | some w =>
    rw [map_fst_aset_of_isSome _ _ _ (by simp [hs])]
    exact h
  | none =>
    rw [map_fst_aset_of_none _ _ _ hs]
    have hk : k ∉ l.map Prod.fst := by
      rw [← alookup_isSome_iff]
      simp [hs]
    simp [List.nodup_append, h, hk]

/-- A write to an existing key keeps the length. -/
theorem length_aset_of_isSome {α : Type} (l : List (String × α)) (k : String) (v : α)
    (h : (alookup l k).isSome = true) : (aset l k v).length = l.length := by
  have := map_fst_aset_of_isSome l k v h
  have h2 := congrArg List.length this
  simpa using h2

/-- A write to a fresh key grows the length by one. -/
theorem length_aset_of_none {α : Type} (l : List (String × α)) (k : String) (v : α)
    (h : alookup l k = none) : (aset l k v).length = l.length + 1 := by
  have := map_fst_aset_of_none l k v h
  have h2 := congrArg List.length this
  simpa using h2

/-- Reading back the key just incremented. -/
theorem alookup_incKey_self (l : List (String × Nat)) (k : String) :
    alookup (incKey l k) k = some ((alookup l k).getD 0 + 1) := by
  induction l with
  | nil => simp [incKey, alookup]
  | cons e rest ih =>
    obtain ⟨k1, n⟩ := e
    by_cases h1 : k1 = k
    · simp [incKey, h1, alookup]
    · simp [incKey, h1, alookup, ih]

/-- Incrementing one key does not change the value read at another. -/
theorem alookup_incKey_ne (l : List (String × Nat)) (k k' : String) (h : k' ≠ k) :
    alookup (incKey l k) k' = alookup l k' := by
  have h0 : ¬k = k' := fun he => h he.symm
  induction l with
  | nil => simp [incKey, alookup, h0]
  | cons e rest ih =>
    obtain ⟨k1, n⟩ := e
    by_cases h1 : k1 = k
    · subst h1
      simp [incKey, alookup, h0]
    · by_cases h2 : k1 = k'
      · simp [incKey, alookup, h1, h2, h]
      · simp [incKey, alookup, h1, h2, ih]

/-- Every entry after an increment is an old entry or carries the
incremented key with a positive value. -/
theorem mem_incKey {l : List (String × Nat)} {k : String} {e : String × Nat}
    (h : e ∈ incKey l k) : e ∈ l ∨ (e.1 = k ∧ 1 ≤ e.2) := by
  induction l with
  | nil =>
    simp [incKey] at h
    subst h
    exact Or.inr ⟨rfl, by omega⟩
  | cons e1 rest ih =>
    obtain ⟨k1, n⟩ := e1
    by_cases h1 : k1 = k
    · subst h1
      simp [incKey] at h
      rcases h with h | h
      · subst h
        exact Or.inr ⟨rfl, by omega⟩
      · exact Or.inl (List.mem_cons_of_mem _ h)
    · simp [incKey, h1] at h
      rcases h with h | h
      · subst h
        exact Or.inl (List.mem_cons_self _ _)
      · rcases ih h with h2 | h2
        · exact Or.inl (List.mem_cons_of_mem _ h2)
        · exact Or.inr h2

/-- Key list after an increment of an existing key. -/
theorem map_fst_incKey_of_isSome (l : List (String × Nat)) (k : String)
    (h : (alookup l k).isSome = true) : (incKey l k).map Prod.fst = l.map Prod.fst := by
  induction l with
  | nil => simp [alookup] at h
  | cons e rest ih =>
    obtain ⟨k1, n⟩ := e
    by_cases h1 : k1 = k
    · simp [incKey, h1]
    · simp [alookup, h1] at h
      simp [incKey, h1, ih h]

/-- Key list after an increment of a fresh key. -/
theorem map_fst_incKey_of_none (l : List (String × Nat)) (k : String)
    (h : alookup l k = none) : (incKey l k).map Prod.fst = l.map Prod.fst ++ [k] := by
  induction l with
  | nil => simp [incKey]
  | cons e rest ih =>
    obtain ⟨k1, n⟩ := e
    by_cases h1 : k1 = k
    · subst h1
      simp [alookup] at h
    · simp [alookup, h1] at h
      simp [incKey, h1, ih h]

/-- An increment keeps a no-duplicate key list duplicate free. -/
theorem nodup_keys_incKey (l : List (String × Nat)) (k : String)
    (h : (l.map Prod.fst).Nodup) : ((incKey l k).map Prod.fst).Nodup := by
  cases hs : alookup l k with
  | some w =>
    rw [map_fst_incKey_of_isSome _ _ (by simp [hs])]
    exact h
  | none =>
    rw [map_fst_incKey_of_none _ _ hs]
    have hk : k ∉ l.map Prod.fst := by
      rw [← alookup_isSome_iff]
      simp [hs]
    simp [List.nodup_append, h, hk]

/-! ### Shape lemmas for the public operations -/

/-- The profile `record_interaction`, `learn_from_feedback` and the prompt
personalization work on: the stored one, or the fresh default for an
unseen user. -/
def ensuredProfile (s : UserBehaviorTracker) (uid : String) : UserProfile :=
  (get_user_profile s uid).2

/-- The off-track trigger condition of `_detect_off_track`, stated over
the raw call arguments: some indicator phrase is contained
case-insensitively in the input text or the feedback text, or the
satisfaction score is present and strictly below 3. -/
def offTrackTrigger (input_text : String) (feedback : Option String)
    (score : Option ℚ) : Bool :=
  off_track_indicators.any (fun ind =>
    strIn (strLower ind) (strLower input_text) ||
      strIn (strLower ind) (strLower (feedback.getD "")))
  || (match score with
      | some sc => decide (sc < 3)
      | none => false)

/-- The early-returning indicator loop computes the same answer as one
pass of `List.any`. -/
theorem checkOffTrackIndicators_eq_any (il fl : String) (L : List String) :
    checkOffTrackIndicators il fl L =
      L.any (fun ind => strIn (strLower ind) il || strIn (strLower ind) fl) := by
  induction L with
  | nil => rfl
  | cons a L ih =>
    simp only [checkOffTrackIndicators, List.any_cons, ih]
    cases h : (strIn (strLower a) il || strIn (strLower a) fl) <;> simp [h]

/-- State effect of `_detect_off_track`: one increment of the off-track
counter of the user exactly when the trigger condition holds. -/
theorem detect_off_track_fst (s : UserBehaviorTracker) (uid : String)
    (i : UserInteraction) :
    (detect_off_track s uid i).1 =
      if offTrackTrigger i.input_text i.feedback i.satisfaction_score then
        { s with off_track_patterns := incKey s.off_track_patterns uid }
      else s := by
  cases h1 : off_track_indicators.any (fun ind =>
      strIn (strLower ind) (strLower i.input_text) ||
        strIn (strLower ind) (strLower (i.feedback.getD ""))) <;>
    cases h2 : (match i.satisfaction_score with
                | some sc => decide (sc < 3)
                | none => false) <;>
    simp [detect_off_track, offTrackTrigger, checkOffTrackIndicators_eq_any, h1, h2]

/-- The value returned by `get_user_profile` as a case split on the
store. -/
theorem get_user_profile_snd (s : UserBehaviorTracker) (uid : String) :
    ensuredProfile s uid =
      match alookup s.user_profiles uid with
      | some p => p
      | none => defaultUserProfile uid := by
  unfold ensuredProfile get_user_profile
  cases alookup s.user_profiles uid <;> rfl

/-- The state returned by `get_user_profile`: the ensured profile written
at the user key (a write of the stored value when the user was already
known). -/
theorem get_user_profile_fst (s : UserBehaviorTracker) (uid : String) :
    (get_user_profile s uid).1 =
      { s with user_profiles := aset s.user_profiles uid (ensuredProfile s uid) } := by
  unfold ensuredProfile
  cases h : alookup s.user_profiles uid with
  | some p => simp [get_user_profile, h, aset_lookup_self _ _ _ h]
  | none => simp [get_user_profile, h]

/-- A known user short-circuits `get_user_profile`. -/
theorem get_user_profile_of_some {s : UserBehaviorTracker} {uid : String}
    {p : UserProfile} (h : alookup s.user_profiles uid = some p) :
    get_user_profile s uid = (s, p) := by
  simp [get_user_profile, h]

/-- After `get_user_profile` the user is stored with the ensured
profile. -/
theorem alookup_ensure_self (s : UserBehaviorTracker) (uid : String) :
    alookup ((get_user_profile s uid).1).user_profiles uid =
      some (ensuredProfile s uid) := by
  rw [get_user_profile_fst]
  exact alookup_aset_self _ _ _

/-- The second `get_user_profile` for the same user changes nothing and
returns the same profile. -/
theorem get_user_profile_idem (s : UserBehaviorTracker) (uid : String) :
    get_user_profile ((get_user_profile s uid).1) uid =
      ((get_user_profile s uid).1, ensuredProfile s uid) :=
  get_user_profile_of_some (alookup_ensure_self s uid)

/-- The profile update `record_interaction` applies before the off-track
detection: count bump, last-interaction stamp, and score append when a
score is present. -/
def bumpProfile (p : UserProfile) (sc : Option ℚ) (now : Int) : UserProfile :=
  let p1 := { p with interaction_count := p.interaction_count + 1,
                     last_interaction := some now }
  match sc with
  | some v => { p1 with satisfaction_history := p1.satisfaction_history ++ [v] }
  | none => p1

/-- Full state effect of `record_interaction`. -/
theorem record_interaction_eq (s : UserBehaviorTracker)
    (uid ty ag inp out : String) (sc : Option ℚ) (fb : Option String)
    (md : List (String × String)) (now : Int) :
    record_interaction s uid ty ag inp out sc fb md now =
      (if offTrackTrigger inp fb sc then
        { interactions := s.interactions ++ [mkInteraction uid ty ag inp out sc fb md now]
          user_profiles := aset s.user_profiles uid (bumpProfile (ensuredProfile s uid) sc now)
          off_track_patterns := incKey s.off_track_patterns uid }
      else
        { interactions := s.interactions ++ [mkInteraction uid ty ag inp out sc fb md now]
          user_profiles := aset s.user_profiles uid (bumpProfile (ensuredProfile s uid) sc now)
          off_track_patterns := s.off_track_patterns }) := by
  cases h : alookup s.user_profiles uid <;>
    cases sc <;>
      simp [record_interaction, get_user_profile, detect_off_track_fst,
        ensuredProfile, bumpProfile, mkInteraction, h, aset_aset]

/-- The preference update `learn_from_feedback` applies to the ensured
profile. -/
def learnUpdate (p : UserProfile) (feedback : String) : UserProfile :=
  let fl := strLower feedback
  let p1 :=
    if strIn "too long" fl || strIn "verbose" fl then
      { p with preferences := aset p.preferences "response_length" "shorter" }
    else if strIn "too short" fl || strIn "brief" fl then
      { p with preferences := aset p.preferences "response_length" "longer" }
    else p
  if strIn "rude" fl || strIn "inappropriate" fl then
    { p1 with preferences := aset p1.preferences "tone" "more_professional" }
  else p1

/-- Full state effect of `learn_from_feedback`: only the preferences of
the ensured profile of the named user change. -/
theorem learn_from_feedback_eq (s : UserBehaviorTracker) (uid fb : String)
    (sc : ℚ) :
    learn_from_feedback s uid fb sc =
      { interactions := s.interactions
        user_profiles := aset s.user_profiles uid (learnUpdate (ensuredProfile s uid) fb)
        off_track_patterns := s.off_track_patterns } := by
  cases h : alookup s.user_profiles uid <;>
    simp [learn_from_feedback, get_user_profile, learnUpdate, ensuredProfile,
      h, aset_aset]

/-- The learned-preference update touches no field but the
preferences. -/
theorem learnUpdate_proj (p : UserProfile) (fb : String) :
    (learnUpdate p fb).user_id = p.user_id ∧
    (learnUpdate p fb).interaction_count = p.interaction_count ∧
    (learnUpdate p fb).preferred_response_style = p.preferred_response_style ∧
    (learnUpdate p fb).common_questions = p.common_questions ∧
    (learnUpdate p fb).satisfaction_history = p.satisfaction_history ∧
    (learnUpdate p fb).last_interaction = p.last_interaction := by
  unfold learnUpdate
  by_cases h1 : (strIn "too long" (strLower fb) || strIn "verbose" (strLower fb)) = true <;>
    by_cases h2 : (strIn "too short" (strLower fb) || strIn "brief" (strLower fb)) = true <;>
      by_cases h3 : (strIn "rude" (strLower fb) || strIn "inappropriate" (strLower fb)) = true <;>
        simp [h1, h2, h3]

/-- Both components of `analyze_response_style_preference` keep only the
profile-ensuring state change. -/
theorem analyze_fst (s : UserBehaviorTracker) (uid : String) (now : Int) :
    (analyze_response_style_preference s uid now).1 = (get_user_profile s uid).1 := by
  simp only [analyze_response_style_preference]
  split_ifs <;> rfl

/-- The style answer does not depend on the profile-ensuring write done
for the same user beforehand. -/
theorem analyze_snd_ensure (s : UserBehaviorTracker) (uid : String) (now : Int) :
    (analyze_response_style_preference ((get_user_profile s uid).1) uid now).2 =
      (analyze_response_style_preference s uid now).2 := by
  have hi : ((get_user_profile s uid).1).interactions = s.interactions := by
    rw [get_user_profile_fst]
  simp only [analyze_response_style_preference, get_user_profile_idem, hi,
    ensuredProfile]

/-- Mean of the last five satisfaction scores (the Python expression
`sum(history[-5:]) / len(history[-5:])`). -/
def lastFiveAvg (h : List ℚ) : ℚ :=
  (lastFive h).sum / ((lastFive h).length : ℚ)

/-- The ordered directive list `get_personalized_prompt_adjustments`
builds: style directive, then off-track directive, then low-satisfaction
directive. -/
def directivesFor (s : UserBehaviorTracker) (uid : String) (now : Int) :
    List String :=
  (if (analyze_response_style_preference s uid now).2 = "concise" then
     [style_concise_directive]
   else if (analyze_response_style_preference s uid now).2 = "detailed" then
     [style_detailed_directive]
   else [])
  ++ (if offTrackGet s uid > 2 then [off_track_directive] else [])
  ++ (if (ensuredProfile s uid).satisfaction_history ≠ [] then
        (if lastFiveAvg (ensuredProfile s uid).satisfaction_history < 4 then
          [low_satisfaction_directive]
         else [])
      else [])

/-- The prompt personalization only performs the profile-ensuring state
change. -/
theorem personalize_fst (s : UserBehaviorTracker) (uid base : String) (now : Int) :
    (get_personalized_prompt_adjustments s uid base now).1 =
      (get_user_profile s uid).1 := by
  simp only [get_personalized_prompt_adjustments, analyze_fst, get_user_profile_idem]
  split_ifs <;> rfl

/-- The off-track counters are untouched by the profile-ensuring state
change. -/
theorem off_track_ensure (s : UserBehaviorTracker) (uid : String) :
    ((get_user_profile s uid).1).off_track_patterns = s.off_track_patterns := by
  rw [get_user_profile_fst]

/-- Text built by `get_personalized_prompt_adjustments`: the base prompt
alone when no directive applies, otherwise the base prompt followed by the
header and the dash-prefixed directives. -/
theorem personalize_snd (s : UserBehaviorTracker) (uid base : String) (now : Int) :
    (get_personalized_prompt_adjustments s uid base now).2 =
      (if directivesFor s uid now = [] then base
       else base ++ "\n\nPERSONALIZATION NOTES:\n" ++
         String.intercalate "\n" ((directivesFor s uid now).map (fun adj => "- " ++ adj))) := by
  have hoff : offTrackGet ((get_user_profile s uid).1) uid = offTrackGet s uid := by
    simp only [offTrackGet, off_track_ensure]
  simp only [get_personalized_prompt_adjustments, analyze_fst, get_user_profile_idem,
    analyze_snd_ensure, hoff, directivesFor, lastFiveAvg, ensuredProfile]
  split_ifs <;> simp_all

/-- The style inference returns one of exactly three strings. -/
theorem analyze_snd_mem (s : UserBehaviorTracker) (uid : String) (now : Int) :
    (analyze_response_style_preference s uid now).2 = "balanced" ∨
    (analyze_response_style_preference s uid now).2 = "concise" ∨
    (analyze_response_style_preference s uid now).2 = "detailed" := by
  simp only [analyze_response_style_preference]
  split_ifs <;> simp

/-- No directive applies exactly when the style is balanced, the
off-track counter is at most 2, and the satisfaction history is empty or
its last-five mean is at least 4. -/
theorem directivesFor_eq_nil_iff (s : UserBehaviorTracker) (uid : String) (now : Int) :
    directivesFor s uid now = [] ↔
      ((analyze_response_style_preference s uid now).2 = "balanced" ∧
       offTrackGet s uid ≤ 2 ∧
       ((ensuredProfile s uid).satisfaction_history = [] ∨
        4 ≤ lastFiveAvg (ensuredProfile s uid).satisfaction_history)) := by
  have ebc : ¬(("balanced" : String) = "concise") := by decide
  have ebd : ¬(("balanced" : String) = "detailed") := by decide
  have ecb : ¬(("concise" : String) = "balanced") := by decide
  have edb : ¬(("detailed" : String) = "balanced") := by decide
  unfold directivesFor
  rcases analyze_snd_mem s uid now with h | h | h <;> rw [h] <;>
    by_cases hoff : offTrackGet s uid > 2 <;>
      by_cases hh : (ensuredProfile s uid).satisfaction_history = [] <;>
        by_cases havg : lastFiveAvg (ensuredProfile s uid).satisfaction_history < 4 <;>
          simp [hoff, hh, havg, ebc, ebd, ecb, edb, not_lt]
  all_goals first
    | omega
    | exact ⟨by omega, not_lt.mp havg⟩

/-- Claim C5: `personalize_prompt(user, base_prompt)` returns the base
prompt byte-identical exactly when no directive applies (style balanced,
off-track counter at most 2, and empty satisfaction history or last-five
mean at least 4); otherwise it returns the base prompt followed by the
fixed header line and one dash-prefixed line per applicable directive in
the fixed precedence style, off-track, low satisfaction (the order
`directivesFor` builds). -/
theorem personalize_prompt_spec (s : UserBehaviorTracker)
    (uid base_prompt : String) (now : Int) :
    ((get_personalized_prompt_adjustments s uid base_prompt now).2 = base_prompt ↔
      ((analyze_response_style_preference s uid now).2 = "balanced" ∧
       offTrackGet s uid ≤ 2 ∧
       ((ensuredProfile s uid).satisfaction_history = [] ∨
        4 ≤ lastFiveAvg (ensuredProfile s uid).satisfaction_history)))
    ∧ (get_personalized_prompt_adjustments s uid base_prompt now).2 =
        (if directivesFor s uid now = [] then base_prompt
         else base_prompt ++ "\n\nPERSONALIZATION NOTES:\n" ++
           String.intercalate "\n"
             ((directivesFor s uid now).map (fun adj => "- " ++ adj))) := by
  refine ⟨?_, personalize_snd s uid base_prompt now⟩
  rw [personalize_snd, ← directivesFor_eq_nil_iff]
  by_cases hd : directivesFor s uid now = []
  · simp [hd]
  · rw [if_neg hd]
    refine iff_of_false ?_ hd
    intro heq
    have hlen := congrArg String.length heq
    simp only [String.length_append] at hlen
    have hpos : 0 < ("\n\nPERSONALIZATION NOTES:\n" : String).length := by decide
    omega

/-! ### Style inference against the windowed-count specification -/

/-- The interactions of the user whose age at evaluation time is strictly
below seven days (the recency window of the style inference). -/
def windowInteractions (s : UserBehaviorTracker) (uid : String) (now : Int) :
    List UserInteraction :=
  s.interactions.filter
    (fun i => decide (i.user_id = uid) && decide (now - i.timestamp < sevenDays))

/-- Number of window interactions whose input text contains some concise
indicator phrase. -/
def conciseCount (s : UserBehaviorTracker) (uid : String) (now : Int) : Nat :=
  (windowInteractions s uid now).countP
    (fun i => decide (∃ ind ∈ concise_indicators, strIn ind (strLower i.input_text) = true))

/-- Number of window interactions whose input text contains some detailed
indicator phrase. -/
def detailedCount (s : UserBehaviorTracker) (uid : String) (now : Int) : Nat :=
  (windowInteractions s uid now).countP
    (fun i => decide (∃ ind ∈ detailed_indicators, strIn ind (strLower i.input_text) = true))

/-- The response style as the specification words it: balanced below
three recorded interactions, else the majority between the windowed
concise and detailed counts with balanced ties. -/
def styleSpec (s : UserBehaviorTracker) (uid : String) (now : Int) : String :=
  if (ensuredProfile s uid).interaction_count < 3 then "balanced"
  else if detailedCount s uid now < conciseCount s uid now then "concise"
  else if conciseCount s uid now < detailedCount s uid now then "detailed"
  else "balanced"

/-- A boolean list scan agrees with the decided existential. -/
theorem any_eq_decide_bex {α : Type} (L : List α) (f : α → Bool) :
    L.any f = decide (∃ x ∈ L, f x = true) := by
  rw [Bool.eq_iff_iff]
  simp [List.any_eq_true]

/-- Claim C4: the style inference returns balanced for every user whose
interaction count is below 3, and otherwise compares the number of
window interactions containing a concise indicator against the number
containing a detailed indicator (an interaction may count toward both),
returning concise, detailed, or balanced on a tie. -/
theorem response_style_spec (s : UserBehaviorTracker) (uid : String) (now : Int) :
    (analyze_response_style_preference s uid now).2 = styleSpec s uid now := by
  have hi : ((get_user_profile s uid).1).interactions = s.interactions := by
    rw [get_user_profile_fst]
  have hcount : ∀ inds : List String,
      ((s.interactions.filter
          (fun i => decide (i.user_id = uid) && decide (now - i.timestamp < sevenDays))).filter
        (fun i => inds.any (fun ind => strIn ind (strLower i.input_text)))).length =
      (windowInteractions s uid now).countP
        (fun i => decide (∃ ind ∈ inds, strIn ind (strLower i.input_text) = true)) := by
    intro inds
    rw [List.countP_eq_length_filter]
    unfold windowInteractions
    congr 1
    apply List.filter_congr
    intro x _
    rw [any_eq_decide_bex]
  simp only [analyze_response_style_preference, styleSpec, conciseCount,
    detailedCount, ensuredProfile, hi]
  rw [hcount concise_indicators, hcount detailed_indicators]
  split_ifs <;> rfl

/-- One recording step moves the off-track counter of the recorded user
by exactly the trigger indicator. -/
theorem record_offtrack_step (s : UserBehaviorTracker)
    (uid ty ag inp out : String) (sc : Option ℚ) (fb : Option String)
    (md : List (String × String)) (now : Int) :
    offTrackGet (record_interaction s uid ty ag inp out sc fb md now) uid =
      offTrackGet s uid + (if offTrackTrigger inp fb sc then 1 else 0) := by
  rw [record_interaction_eq]
  by_cases hb : offTrackTrigger inp fb sc = true
  · simp [hb, offTrackGet, alookup_incKey_self]
  · simp [hb, offTrackGet]

/-- Claim C3: every `record_interaction` call increments the recorded
user's off-track counter by exactly 1 when the input text or feedback
text contains an indicator phrase case-insensitively or the satisfaction
score is present and below 3, and by 0 otherwise; one increment per call
at most, and two identical triggering calls increment twice. -/
theorem offtrack_counter_increment (s : UserBehaviorTracker)
    (uid ty ag inp out : String) (sc : Option ℚ) (fb : Option String)
    (md : List (String × String)) (now : Int) :
    (offTrackGet (record_interaction s uid ty ag inp out sc fb md now) uid =
      offTrackGet s uid + (if offTrackTrigger inp fb sc then 1 else 0))
    ∧ (offTrackGet
        (record_interaction (record_interaction s uid ty ag inp out sc fb md now)
          uid ty ag inp out sc fb md now) uid =
      offTrackGet s uid + (if offTrackTrigger inp fb sc then 2 else 0)) := by
  refine ⟨record_offtrack_step s uid ty ag inp out sc fb md now, ?_⟩
  rw [record_offtrack_step, record_offtrack_step]
  by_cases hb : offTrackTrigger inp fb sc = true <;> simp [hb]

/-- Claim C6: `learn_from_feedback` sets the response-length preference
to shorter on a too-long signal, else to longer on a too-short signal
(too-long takes priority), and the tone preference to more-professional
on a tone-issue signal; in particular the feedback string
`too long and rude` sets both shorter and more-professional. -/
theorem learn_feedback_preferences (s : UserBehaviorTracker) (uid fb : String)
    (sc : ℚ) :
    (∃ p, alookup (learn_from_feedback s uid fb sc).user_profiles uid = some p
      ∧ alookup p.preferences "response_length" =
          (if strIn "too long" (strLower fb) || strIn "verbose" (strLower fb) then
            some "shorter"
           else if strIn "too short" (strLower fb) || strIn "brief" (strLower fb) then
            some "longer"
           else alookup (ensuredProfile s uid).preferences "response_length")
      ∧ alookup p.preferences "tone" =
          (if strIn "rude" (strLower fb) || strIn "inappropriate" (strLower fb) then
            some "more_professional"
           else alookup (ensuredProfile s uid).preferences "tone"))
    ∧ (∃ q, alookup (learn_from_feedback s uid "too long and rude" 2).user_profiles uid
          = some q
        ∧ alookup q.preferences "response_length" = some "shorter"
        ∧ alookup q.preferences "tone" = some "more_professional") := by
  have hgen : ∀ (fb1 : String) (sc1 : ℚ), ∃ p,
      alookup (learn_from_feedback s uid fb1 sc1).user_profiles uid = some p
      ∧ alookup p.preferences "response_length" =
          (if strIn "too long" (strLower fb1) || strIn "verbose" (strLower fb1) then
            some "shorter"
           else if strIn "too short" (strLower fb1) || strIn "brief" (strLower fb1) then
            some "longer"
           else alookup (ensuredProfile s uid).preferences "response_length")
      ∧ alookup p.preferences "tone" =
          (if strIn "rude" (strLower fb1) || strIn "inappropriate" (strLower fb1) then
            some "more_professional"
           else alookup (ensuredProfile s uid).preferences "tone") := by
    intro fb1 sc1
    rw [learn_from_feedback_eq]
    refine ⟨learnUpdate (ensuredProfile s uid) fb1, alookup_aset_self _ _ _, ?_, ?_⟩
    · unfold learnUpdate
      by_cases h1 : (strIn "too long" (strLower fb1) || strIn "verbose" (strLower fb1)) = true <;>
        by_cases h2 : (strIn "too short" (strLower fb1) || strIn "brief" (strLower fb1)) = true <;>
          by_cases h3 : (strIn "rude" (strLower fb1) || strIn "inappropriate" (strLower fb1)) = true <;>
            simp [h1, h2, h3, alookup_aset_self,
              alookup_aset_ne _ "tone" "response_length" _ (by decide)]
    · unfold learnUpdate
      by_cases h1 : (strIn "too long" (strLower fb1) || strIn "verbose" (strLower fb1)) = true <;>
        by_cases h2 : (strIn "too short" (strLower fb1) || strIn "brief" (strLower fb1)) = true <;>
          by_cases h3 : (strIn "rude" (strLower fb1) || strIn "inappropriate" (strLower fb1)) = true <;>
            simp [h1, h2, h3, alookup_aset_self,
              alookup_aset_ne _ "response_length" "tone" _ (by decide)]
  refine ⟨hgen fb sc, ?_⟩
  obtain ⟨q, hq, hrl, htn⟩ := hgen ("too long and rude" : String) 2
  have c1 : (strIn "too long" (strLower ("too long and rude" : String)) ||
      strIn "verbose" (strLower ("too long and rude" : String))) = true := by decide
  have c3 : (strIn "rude" (strLower ("too long and rude" : String)) ||
      strIn "inappropriate" (strLower ("too long and rude" : String))) = true := by decide
  simp only [c1, if_true, ite_true] at hrl
  simp only [c3, if_true, ite_true] at htn
  exact ⟨q, hq, hrl, htn⟩

/-! ### Reliability metrics -/

/-- The per-agent accumulation loop computed from any starting
accumulator: it adds the filtered count and appends the filtered score
list of the agent. -/
theorem agentRaw_aux (l : List UserInteraction) (f : String → Nat × List ℚ)
    (a : String) :
    (l.foldl agentStep f) a =
      ((f a).1 + (l.filter (fun i => decide (i.agent_name = a))).length,
       (f a).2 ++
         (l.filter (fun i => decide (i.agent_name = a))).filterMap
           (fun i => i.satisfaction_score)) := by
  induction l generalizing f with
  | nil => simp
  | cons i l ih =>
    rw [List.foldl_cons, ih]
    by_cases h : i.agent_name = a
    · cases hs : i.satisfaction_score <;>
        simp [agentStep, h, hs, List.filter_cons] <;>
          omega
    · have h2 : ¬a = i.agent_name := fun he => h he.symm
      simp [agentStep, h, h2, List.filter_cons]

/-- The per-agent accumulator equals the filter formulation. -/
theorem agentRaw_eq (l : List UserInteraction) (a : String) :
    agentRaw l a =
      ((l.filter (fun i => decide (i.agent_name = a))).length,
       (l.filter (fun i => decide (i.agent_name = a))).filterMap
         (fun i => i.satisfaction_score)) := by
  unfold agentRaw
  rw [agentRaw_aux]
  simp

/-- Claim C7: on a store with at least one scored interaction,
`get_reliability_metrics` returns a metrics record whose average
satisfaction is the mean over exactly the scored interactions, and whose
per-agent average satisfaction is the mean over that agent's scored
interactions, or 0 when the agent has none (the agent count being that
agent's interaction count). -/
theorem metrics_average_satisfaction (s : UserBehaviorTracker) (now : Int)
    (h : s.interactions.filterMap (fun i => i.satisfaction_score) ≠ []) :
    ∃ m, get_reliability_metrics s now = MetricsResult.ok m
      ∧ m.average_satisfaction =
          (s.interactions.filterMap (fun i => i.satisfaction_score)).sum /
            ((s.interactions.filterMap (fun i => i.satisfaction_score)).length : ℚ)
      ∧ m.total_interactions = s.interactions.length
      ∧ ∀ a : String,
          (m.agent_performance a).count =
            (s.interactions.filter (fun i => decide (i.agent_name = a))).length
          ∧ (m.agent_performance a).avg_satisfaction =
              (if ((s.interactions.filter (fun i => decide (i.agent_name = a))).filterMap
                    (fun i => i.satisfaction_score)) = [] then 0
               else ((s.interactions.filter (fun i => decide (i.agent_name = a))).filterMap
                      (fun i => i.satisfaction_score)).sum /
                    (((s.interactions.filter (fun i => decide (i.agent_name = a))).filterMap
                      (fun i => i.satisfaction_score)).length : ℚ)) := by
  have hne : s.interactions ≠ [] := by
    intro he
    rw [he] at h
    exact h rfl
  have hlen : ¬s.interactions.length = 0 := by
    simpa [List.length_eq_zero] using hne
  have hscored : ¬(s.interactions.filterMap (fun i => i.satisfaction_score)).length = 0 := by
    simpa [List.length_eq_zero] using h
  obtain ⟨m, hm⟩ : ∃ m, get_reliability_metrics s now = MetricsResult.ok m := by
    unfold get_reliability_metrics
    rw [if_neg hlen, if_neg (fun hand => hscored hand.2)]
    exact ⟨_, rfl⟩
  have hm2 := hm
  unfold get_reliability_metrics at hm2
  rw [if_neg hlen, if_neg (fun hand => hscored hand.2)] at hm2
  have hrec := MetricsResult.ok.inj hm2
  refine ⟨m, hm, ?_, ?_, ?_⟩
  · rw [← hrec]
    simp [hlen]
  · rw [← hrec]
  · intro a
    rw [← hrec]
    constructor
    · simp [agent_performance_of, agentRaw_eq]
    · simp only [agent_performance_of, agentRaw_eq]
      by_cases hz : ((s.interactions.filter (fun i => decide (i.agent_name = a))).filterMap
          (fun i => i.satisfaction_score)) = [] <;>
        simp [hz]

/-! ### Reachable-state invariant -/

/-- Invariant of every reachable tracker state: profile interaction
counts agree with the stored record counts, every off-track entry is
positive and belongs to a profiled user, and both dict key lists are
duplicate free. -/
def TrackerInv (s : UserBehaviorTracker) : Prop :=
  (∀ uid, profileCount s uid = countFor s uid)
  ∧ (∀ e ∈ s.off_track_patterns, 1 ≤ e.2 ∧ (alookup s.user_profiles e.1).isSome = true)
  ∧ (s.user_profiles.map Prod.fst).Nodup
  ∧ (s.off_track_patterns.map Prod.fst).Nodup

/-- The recording update always bumps the count by one. -/
theorem bumpProfile_count (p : UserProfile) (sc : Option ℚ) (now : Int) :
    (bumpProfile p sc now).interaction_count = p.interaction_count + 1 := by
  cases sc <;> rfl

/-- The ensured profile carries the profile count of the state. -/
theorem ensuredProfile_count (s : UserBehaviorTracker) (uid : String) :
    (ensuredProfile s uid).interaction_count = profileCount s uid := by
  unfold profileCount
  rw [get_user_profile_snd]
  cases alookup s.user_profiles uid <;> rfl

/-- Profile count through a successful lookup. -/
theorem profileCount_of_lookup {s : UserBehaviorTracker} {u : String}
    {p : UserProfile} (h : alookup s.user_profiles u = some p) :
    profileCount s u = p.interaction_count := by
  unfold profileCount
  rw [h]

/-- Profile count of two states with the same profile value at a key. -/
theorem profileCount_congr {s1 s2 : UserBehaviorTracker} {u : String}
    (h : alookup s1.user_profiles u = alookup s2.user_profiles u) :
    profileCount s1 u = profileCount s2 u := by
  unfold profileCount
  rw [h]

/-- The fresh tracker satisfies the invariant. -/
theorem inv_initial : TrackerInv initialTracker := by
  refine ⟨?_, ?_, ?_, ?_⟩ <;>
    simp [initialTracker, TrackerInv, profileCount, countFor, alookup]

/-- `get_user_profile` preserves the invariant. -/
theorem inv_get_user_profile (s : UserBehaviorTracker) (uid : String)
    (h : TrackerInv s) : TrackerInv ((get_user_profile s uid).1) := by
  obtain ⟨hc, hoff, hnp, hno⟩ := h
  rw [get_user_profile_fst]
  refine ⟨?_, ?_, nodup_keys_aset _ _ _ hnp, hno⟩
  · intro u
    by_cases hu : u = uid
    · subst hu
      rw [profileCount_of_lookup (alookup_aset_self s.user_profiles u (ensuredProfile s u)),
        ensuredProfile_count]
      exact hc u
    · rw [profileCount_congr (alookup_aset_ne s.user_profiles uid u (ensuredProfile s uid) hu)]
      exact hc u
  · intro e he
    obtain ⟨h1, h2⟩ := hoff e he
    exact ⟨h1, alookup_isSome_aset _ _ _ _ h2⟩

/-- An off-track increment of a profiled user preserves the invariant. -/
theorem inv_off_update (s : UserBehaviorTracker) (uid : String)
    (h : TrackerInv s) (huid : (alookup s.user_profiles uid).isSome = true) :
    TrackerInv { s with off_track_patterns := incKey s.off_track_patterns uid } := by
  obtain ⟨hc, hoff, hnp, hno⟩ := h
  refine ⟨hc, ?_, hnp, nodup_keys_incKey _ _ hno⟩
  intro e he
  rcases mem_incKey he with h1 | h1
  · exact hoff e h1
  · refine ⟨h1.2, ?_⟩
    rw [h1.1]
    exact huid

/-- The recording step before off-track detection preserves the
invariant. -/
theorem inv_record_mid (s : UserBehaviorTracker)
    (uid ty ag inp out : String) (sc : Option ℚ) (fb : Option String)
    (md : List (String × String)) (now : Int) (h : TrackerInv s) :
    TrackerInv
      { interactions := s.interactions ++ [mkInteraction uid ty ag inp out sc fb md now]
        user_profiles := aset s.user_profiles uid (bumpProfile (ensuredProfile s uid) sc now)
        off_track_patterns := s.off_track_patterns } := by
  obtain ⟨hc, hoff, hnp, hno⟩ := h
  refine ⟨?_, ?_, nodup_keys_aset _ _ _ hnp, hno⟩
  · intro u
    by_cases hu : u = uid
    · subst hu
      rw [profileCount_of_lookup
          (alookup_aset_self s.user_profiles u (bumpProfile (ensuredProfile s u) sc now)),
        bumpProfile_count, ensuredProfile_count, hc u]
      unfold countFor
      rw [List.filter_append]
      simp [mkInteraction]
    · rw [profileCount_congr
          (alookup_aset_ne s.user_profiles uid u (bumpProfile (ensuredProfile s uid) sc now) hu),
        hc u]
      have hne : ¬(uid = u) := fun he => hu he.symm
      unfold countFor
      rw [List.filter_append]
      simp [mkInteraction, hne]
  · intro e he
    obtain ⟨h1, h2⟩ := hoff e he
    exact ⟨h1, alookup_isSome_aset _ _ _ _ h2⟩

/-- `record_interaction` preserves the invariant. -/
theorem inv_record (s : UserBehaviorTracker)
    (uid ty ag inp out : String) (sc : Option ℚ) (fb : Option String)
    (md : List (String × String)) (now : Int) (h : TrackerInv s) :
    TrackerInv (record_interaction s uid ty ag inp out sc fb md now) := by
  rw [record_interaction_eq]
  by_cases hb : offTrackTrigger inp fb sc = true
  · rw [if_pos hb]
    exact inv_off_update _ uid (inv_record_mid s uid ty ag inp out sc fb md now h)
      (by rw [alookup_aset_self]; rfl)
  · rw [if_neg hb]
    exact inv_record_mid s uid ty ag inp out sc fb md now h

/-- `learn_from_feedback` preserves the invariant. -/
theorem inv_learn (s : UserBehaviorTracker) (uid fb : String) (sc : ℚ)
    (h : TrackerInv s) : TrackerInv (learn_from_feedback s uid fb sc) := by
  obtain ⟨hc, hoff, hnp, hno⟩ := h
  rw [learn_from_feedback_eq]
  refine ⟨?_, ?_, nodup_keys_aset _ _ _ hnp, hno⟩
  · intro u
    by_cases hu : u = uid
    · subst hu
      rw [profileCount_of_lookup
          (alookup_aset_self s.user_profiles u (learnUpdate (ensuredProfile s u) fb)),
        (learnUpdate_proj (ensuredProfile s u) fb).2.1, ensuredProfile_count]
      exact hc u
    · rw [profileCount_congr
          (alookup_aset_ne s.user_profiles uid u (learnUpdate (ensuredProfile s uid) fb) hu)]
      exact hc u
  · intro e he
    obtain ⟨h1, h2⟩ := hoff e he
    exact ⟨h1, alookup_isSome_aset _ _ _ _ h2⟩

/-- Every public operation preserves the invariant. -/
theorem inv_applyOp (s : UserBehaviorTracker) (op : Op) (h : TrackerInv s) :
    TrackerInv (applyOp s op) := by
  cases op with
  | record uid ty ag inp out sc fb md now =>
    exact inv_record s uid ty ag inp out sc fb md now h
  | getProfile uid => exact inv_get_user_profile s uid h
  | style uid now =>
    simp only [applyOp, analyze_fst]
    exact inv_get_user_profile s uid h
  | personalize uid base now =>
    simp only [applyOp, personalize_fst]
    exact inv_get_user_profile s uid h
  | learn uid fb sc => exact inv_learn s uid fb sc h
  | metrics now => exact h

/-- Invariant of the state after any operation sequence from any
invariant start. -/
theorem inv_foldl (ops : List Op) :
    ∀ s : UserBehaviorTracker, TrackerInv s → TrackerInv (ops.foldl applyOp s) := by
  induction ops with
  | nil => intro s h; exact h
  | cons op ops ih =>
    intro s h
    exact ih _ (inv_applyOp s op h)

/-- Every reachable state satisfies the invariant. -/
theorem inv_run (ops : List Op) : TrackerInv (runOps ops) :=
  inv_foldl ops initialTracker inv_initial

/-- Claim C2: after every finite sequence of public operations, the
stored profile of every user carries an interaction count equal to the
number of interaction records of that user held by the store. -/
theorem interaction_count_eq_records (ops : List Op) (uid : String)
    (p : UserProfile) (h : alookup (runOps ops).user_profiles uid = some p) :
    p.interaction_count = countFor (runOps ops) uid := by
  have hc := (inv_run ops).1 uid
  unfold profileCount at hc
  rw [h] at hc
  exact hc

/-- Claim C8: in every reachable state, every user with a non-zero
off-track counter has a stored profile, and a successful
`get_reliability_metrics` reports an off-track rate equal to the number
of users with a non-zero off-track counter divided by the number of
known user profiles; the rate lies in the unit interval and is zero when
no user ever triggered the detector. -/
theorem offtrack_rate_spec (ops : List Op) (now : Int) (m : ReliabilityMetrics)
    (h : get_reliability_metrics (runOps ops) now = MetricsResult.ok m) :
    (∀ u, offTrackGet (runOps ops) u ≠ 0 →
        (alookup (runOps ops).user_profiles u).isSome = true)
    ∧ ∃ F : Finset String,
        (∀ u, u ∈ F ↔ offTrackGet (runOps ops) u ≠ 0)
        ∧ m.off_track_rate =
            (F.card : ℚ) / (((runOps ops).user_profiles.length : ℚ))
        ∧ 0 ≤ m.off_track_rate ∧ m.off_track_rate ≤ 1
        ∧ ((∀ u, offTrackGet (runOps ops) u = 0) → m.off_track_rate = 0) := by
  set s := runOps ops with hs
  obtain ⟨hc, hoff, hnp, hno⟩ := inv_run ops
  rw [← hs] at hc hoff hnp hno
  have hmem_iff : ∀ u, (alookup s.off_track_patterns u).isSome = true ↔
      offTrackGet s u ≠ 0 := by
    intro u
    cases hl : alookup s.off_track_patterns u with
    | none => simp [offTrackGet, hl]
    | some n =>
      have h1 := (hoff (u, n) (alookup_mem _ _ _ hl)).1
      simp only [offTrackGet, hl, Option.isSome_some, Option.getD_some, true_iff]
      omega
  have hProf : ∀ u, offTrackGet s u ≠ 0 →
      (alookup s.user_profiles u).isSome = true := by
    intro u hu
    cases hl : alookup s.off_track_patterns u with
    | none =>
      exfalso
      apply hu
      simp [offTrackGet, hl]
    | some n =>
      exact (hoff (u, n) (alookup_mem _ _ _ hl)).2
  simp only [get_reliability_metrics] at h
  split at h
  · exact absurd h (by simp)
  · split at h
    · exact absurd h (by simp)
    · next hlen hguard =>
      have hrec := MetricsResult.ok.inj h
      have hex : ∃ i, i ∈ s.interactions := by
        cases hi : s.interactions with
        | nil => rw [hi] at hlen; simp at hlen
        | cons a l => exact ⟨a, List.mem_cons_self _ _⟩
      obtain ⟨i, hi⟩ := hex
      have hcount : countFor s i.user_id ≠ 0 := by
        unfold countFor
        have hmem : i ∈ s.interactions.filter (fun j => decide (j.user_id = i.user_id)) :=
          List.mem_filter.mpr ⟨hi, by simp⟩
        have := List.ne_nil_of_mem hmem
        simpa [List.length_eq_zero] using this
      have hpc : profileCount s i.user_id ≠ 0 := by
        rw [hc i.user_id]
        exact hcount
      have hplook : (alookup s.user_profiles i.user_id).isSome = true := by
        cases hl : alookup s.user_profiles i.user_id with
        | none =>
          exfalso
          apply hpc
          unfold profileCount
          rw [hl]
        | some p => rfl
      have hprofne : ¬s.user_profiles.length = 0 := by
        cases hp : s.user_profiles with
        | nil => rw [hp] at hplook; simp [alookup] at hplook
        | cons e rest => simp [hp]
      have hrate : m.off_track_rate =
          (s.off_track_patterns.length : ℚ) / (s.user_profiles.length : ℚ) := by
        rw [← hrec]
        simp [hprofne]
      have hsub : ∀ x ∈ s.off_track_patterns.map Prod.fst,
          x ∈ s.user_profiles.map Prod.fst := by
        intro x hx
        obtain ⟨e, he, hxe⟩ := List.mem_map.mp hx
        have h2 := (hoff e he).2
        rw [← hxe]
        exact (alookup_isSome_iff _ _).mp h2
      have hle : s.off_track_patterns.length ≤ s.user_profiles.length := by
        calc s.off_track_patterns.length
            = (s.off_track_patterns.map Prod.fst).toFinset.card := by
              rw [List.toFinset_card_of_nodup hno, List.length_map]
          _ ≤ (s.user_profiles.map Prod.fst).toFinset.card := by
              apply Finset.card_le_card
              intro x hx
              rw [List.mem_toFinset] at hx ⊢
              exact hsub x hx
          _ ≤ (s.user_profiles.map Prod.fst).length := List.toFinset_card_le _
          _ = s.user_profiles.length := List.length_map _ _
      refine ⟨hProf, (s.off_track_patterns.map Prod.fst).toFinset, ?_, ?_, ?_, ?_, ?_⟩
      · intro u
        rw [List.mem_toFinset, ← alookup_isSome_iff]
        exact hmem_iff u
      · rw [hrate, List.toFinset_card_of_nodup hno, List.length_map]
      · rw [hrate]
        positivity
      · rw [hrate]
        apply div_le_one_of_le₀
        · exact_mod_cast hle
        · positivity
      · intro hz
        have hnil : s.off_track_patterns = [] := by
          cases hp : s.off_track_patterns with
          | nil => rfl
          | cons e rest =>
            exfalso
            have hmem : e ∈ s.off_track_patterns := by
              rw [hp]
              exact List.mem_cons_self _ _
            have hsome : (alookup s.off_track_patterns e.1).isSome = true :=
              (alookup_isSome_iff _ _).mpr (List.mem_map.mpr ⟨e, hmem, rfl⟩)
            have hne := (hmem_iff e.1).mp hsome
            exact hne (hz e.1)
        rw [hrate, hnil]
        simp

/-- Claim C9: `get_user_profile` never fails; for an unseen user it
creates, stores and returns the default profile with interaction count 0,
a second call returns the already-stored profile without duplicating
entries in the user map, and the prompt personalization and style
inference lazily create the profile the same way. -/
theorem get_user_profile_lazy_idempotent (s : UserBehaviorTracker)
    (uid base : String) (now : Int)
    (h : alookup s.user_profiles uid = none) :
    (get_user_profile s uid).2 = defaultUserProfile uid
    ∧ (get_user_profile s uid).2.interaction_count = 0
    ∧ alookup ((get_user_profile s uid).1).user_profiles uid =
        some ((get_user_profile s uid).2)
    ∧ ((get_user_profile s uid).1).user_profiles.length =
        s.user_profiles.length + 1
    ∧ get_user_profile ((get_user_profile s uid).1) uid =
        ((get_user_profile s uid).1, (get_user_profile s uid).2)
    ∧ (alookup ((analyze_response_style_preference s uid now).1).user_profiles uid).isSome
        = true
    ∧ (alookup ((get_personalized_prompt_adjustments s uid base now).1).user_profiles uid).isSome
        = true := by
  have hdef : (get_user_profile s uid).2 = defaultUserProfile uid := by
    simp [get_user_profile, h]
  refine ⟨hdef, by rw [hdef]; rfl, alookup_ensure_self s uid, ?_,
    get_user_profile_idem s uid, ?_, ?_⟩
  · rw [get_user_profile_fst]
    exact length_aset_of_none _ _ _ h
  · rw [analyze_fst, alookup_ensure_self]
    rfl
  · rw [personalize_fst, alookup_ensure_self]
    rfl

/-- Claim C10: `learn_from_feedback` changes only the preferences of the
named user's profile (creating the default profile first when the user
was unseen): the store's interaction sequence, all off-track counters,
every other user's profile entry, and all non-preference fields of the
user's profile, the satisfaction history included, are unchanged. -/
theorem learn_feedback_frame (s : UserBehaviorTracker) (uid fb : String)
    (sc : ℚ) :
    (learn_from_feedback s uid fb sc).interactions = s.interactions
    ∧ (learn_from_feedback s uid fb sc).off_track_patterns = s.off_track_patterns
    ∧ (∀ u, u = uid ∨
        alookup (learn_from_feedback s uid fb sc).user_profiles u =
          alookup s.user_profiles u)
    ∧ ∃ p, alookup (learn_from_feedback s uid fb sc).user_profiles uid = some p
        ∧ p.user_id = (ensuredProfile s uid).user_id
        ∧ p.interaction_count = (ensuredProfile s uid).interaction_count
        ∧ p.preferred_response_style = (ensuredProfile s uid).preferred_response_style
        ∧ p.common_questions = (ensuredProfile s uid).common_questions
        ∧ p.satisfaction_history = (ensuredProfile s uid).satisfaction_history
        ∧ p.last_interaction = (ensuredProfile s uid).last_interaction := by
  rw [learn_from_feedback_eq]
  refine ⟨rfl, rfl, ?_, ?_⟩
  · intro u
    by_cases hu : u = uid
    · exact Or.inl hu
    · exact Or.inr (alookup_aset_ne _ _ _ _ hu)
  · obtain ⟨h1, h2, h3, h4, h5, h6⟩ := learnUpdate_proj (ensuredProfile s uid) fb
    exact ⟨learnUpdate (ensuredProfile s uid) fb, alookup_aset_self _ _ _,
      h1, h2, h3, h4, h5, h6⟩

/-- Claim C1, the code divergence made concrete: the empty store returns
the no-data indicator, and a store holding exactly one interaction (so
not empty) with no satisfaction score makes `get_reliability_metrics`
raise `ZeroDivisionError` instead of returning a metrics record, because
the division by the number of scored interactions is guarded only by the
store being non-empty. -/
theorem metrics_unscored_store_raises :
    get_reliability_metrics initialTracker 0 = MetricsResult.noData
    ∧ (runOps [Op.record "u1" "telegram_message" "health_agent" "hello" "hi"
        none none [] 0]).interactions.length = 1
    ∧ get_reliability_metrics
        (runOps [Op.record "u1" "telegram_message" "health_agent" "hello" "hi"
          none none [] 0]) 0 = MetricsResult.zeroDivisionError := by
  refine ⟨rfl, by decide, ?_⟩
  rfl

/-! ### Concrete witnesses -/

/-- One recorded interaction with score 5 by one agent, used as concrete
input for the reachable-state theorems. -/
def sampleRecordOp : Op :=
  Op.record "u1" "telegram_message" "health_agent" "hello" "hi" (some 5) none [] 0

/-- The store after recording the sample interaction. -/
def sampleStore : UserBehaviorTracker := runOps [sampleRecordOp]

/-- The metrics record the sample store reports. -/
def sampleMetrics : ReliabilityMetrics :=
  { total_interactions := sampleStore.interactions.length
    unique_users := sampleStore.user_profiles.length
    average_satisfaction :=
      (sampleStore.interactions.filterMap (fun i => i.satisfaction_score)).sum /
        ((sampleStore.interactions.filterMap (fun i => i.satisfaction_score)).length : ℚ)
    off_track_rate := (sampleStore.off_track_patterns.length : ℚ) /
      (sampleStore.user_profiles.length : ℚ)
    agent_performance := agent_performance_of sampleStore.interactions
    timestamp := 0 }

/-- The profile stored for the sample user. -/
def sampleProfile : UserProfile :=
  { user_id := "u1", interaction_count := 1, preferred_response_style := "balanced",
    common_questions := [], satisfaction_history := [5], last_interaction := some 0,
    preferences := [] }

/-- Witness for claim C2 at the sample operation sequence. -/
theorem interaction_count_eq_records_witness :
    sampleProfile.interaction_count = countFor (runOps [sampleRecordOp]) "u1" :=
  interaction_count_eq_records [sampleRecordOp] "u1" sampleProfile (by decide)

/-- Witness for claim C7 at the sample store. -/
theorem metrics_average_satisfaction_witness :
    ∃ m, get_reliability_metrics sampleStore 0 = MetricsResult.ok m
      ∧ m.average_satisfaction =
          (sampleStore.interactions.filterMap (fun i => i.satisfaction_score)).sum /
            ((sampleStore.interactions.filterMap (fun i => i.satisfaction_score)).length : ℚ)
      ∧ m.total_interactions = sampleStore.interactions.length
      ∧ ∀ a : String,
          (m.agent_performance a).count =
            (sampleStore.interactions.filter (fun i => decide (i.agent_name = a))).length
          ∧ (m.agent_performance a).avg_satisfaction =
              (if ((sampleStore.interactions.filter (fun i => decide (i.agent_name = a))).filterMap
                    (fun i => i.satisfaction_score)) = [] then 0
               else ((sampleStore.interactions.filter (fun i => decide (i.agent_name = a))).filterMap
                      (fun i => i.satisfaction_score)).sum /
                    (((sampleStore.interactions.filter (fun i => decide (i.agent_name = a))).filterMap
                      (fun i => i.satisfaction_score)).length : ℚ)) :=
  metrics_average_satisfaction sampleStore 0 (by decide)

/-- Witness for claim C8 at the sample store. -/
theorem offtrack_rate_spec_witness :
    (∀ u, offTrackGet (runOps [sampleRecordOp]) u ≠ 0 →
        (alookup (runOps [sampleRecordOp]).user_profiles u).isSome = true)
    ∧ ∃ F : Finset String,
        (∀ u, u ∈ F ↔ offTrackGet (runOps [sampleRecordOp]) u ≠ 0)
        ∧ sampleMetrics.off_track_rate =
            (F.card : ℚ) / (((runOps [sampleRecordOp]).user_profiles.length : ℚ))
        ∧ 0 ≤ sampleMetrics.off_track_rate ∧ sampleMetrics.off_track_rate ≤ 1
        ∧ ((∀ u, offTrackGet (runOps [sampleRecordOp]) u = 0) →
            sampleMetrics.off_track_rate = 0) :=
  offtrack_rate_spec [sampleRecordOp] 0 sampleMetrics rfl

/-- Witness for claim C9 at the fresh tracker and an unseen user. -/
theorem get_user_profile_lazy_idempotent_witness :
    (get_user_profile initialTracker "u1").2 = defaultUserProfile "u1"
    ∧ (get_user_profile initialTracker "u1").2.interaction_count = 0
    ∧ alookup ((get_user_profile initialTracker "u1").1).user_profiles "u1" =
        some ((get_user_profile initialTracker "u1").2)
    ∧ ((get_user_profile initialTracker "u1").1).user_profiles.length =
        initialTracker.user_profiles.length + 1
    ∧ get_user_profile ((get_user_profile initialTracker "u1").1) "u1" =
        ((get_user_profile initialTracker "u1").1, (get_user_profile initialTracker "u1").2)
    ∧ (alookup ((analyze_response_style_preference initialTracker "u1" 0).1).user_profiles
        "u1").isSome = true
    ∧ (alookup ((get_personalized_prompt_adjustments initialTracker "u1" "base" 0).1).user_profiles
        "u1").isSome = true :=
  get_user_profile_lazy_idempotent initialTracker "u1" "base" 0 rfl
